import Mathlib

/-!
Shallow embedding of the document store and tool layer of
`src/main.py` (simple-agent-document-summarisation), together with
proofs of the specified properties.

Python strings are modelled as Lean `String` (a list of characters);
Python `dict` (which preserves insertion order, and on re-assignment of
an existing key keeps its position while replacing the value) is
modelled as an association list with `dictInsert` / `dictGet`.
External effects are explicit parameters: the wall clock
(`datetime.now().isoformat()`) is a `now : String` argument, and the
langchain document loaders are a record of fallible parsing functions
(`Loaders`), each returning the list of `page_content` strings of the
parsed documents or an exception message.
-/

namespace DocAgent

/-- Python `d[k] = v` on an insertion-ordered dict represented as an
association list: replace the value in place if the key is present,
otherwise append the new binding at the end. -/
def dictInsert (k : String) (v : α) : List (String × α) → List (String × α)
  | [] => [(k, v)]
  | (k', v') :: rest => if k' = k then (k', v) :: rest else (k', v') :: dictInsert k v rest

/-- Python `d.get(k)`: first binding for `k`, if any. -/
def dictGet (k : String) : List (String × α) → Option α
  | [] => none
  | (k', v') :: rest => if k' = k then some v' else dictGet k rest

/-- Python `s[:n]` on a string: the first `min n (length s)` characters. -/
def pySlice (n : Nat) (s : String) : String :=
  String.mk (s.data.take n)

/-- ASCII model of Python `s.lower()`: lower-case every character. -/
def pyLower (s : String) : String :=
  String.mk (s.data.map Char.toLower)

/-- Python `needle in haystack` on strings: substring containment,
i.e. some suffix of the haystack starts with the needle. -/
def pyIn (needle haystack : String) : Bool :=
  (List.range (haystack.data.length + 1)).any fun i =>
    needle.data.isPrefixOf (haystack.data.drop i)

/-- Python (posix) `os.path.basename(s)`: everything after the last `/`
(the whole string when there is no `/`). -/
def pyBasename (s : String) : String :=
  String.mk ((s.data.reverse.takeWhile (fun c => c != '/')).reverse)

/-- Python `s.split(sep)[-1]`: everything after the last occurrence of
`sep` (the whole string when `sep` does not occur). -/
def pySplitLast (sep : Char) (s : String) : String :=
  String.mk ((s.data.reverse.takeWhile (fun c => c != sep)).reverse)

/-- The metadata record built by `DocumentStore.add_document`
(`src/main.py` lines 42-47). -/
structure DocMetadata where
  filepath : String
  upload_time : String
  length : Nat
  type : String
deriving Repr, DecidableEq

/-- Model of `DocumentStore` (`src/main.py` lines 35-63): two insertion-ordered
dicts, `documents` (id -> content) and `metadata` (id -> metadata). -/
structure DocumentStore where
  documents : List (String × String)
  metadata : List (String × DocMetadata)
deriving Repr, DecidableEq

/-- Model of `DocumentStore.__init__`: both dicts start empty. -/
def DocumentStore.empty : DocumentStore := ⟨[], []⟩

/-- Model of `DocumentStore.add_document` (lines 40-47): writes the content under
`document_id` and the derived metadata under the same key.  The wall
clock value is the explicit `now` argument. -/
def DocumentStore.add_document (s : DocumentStore)
    (document_id content filepath now : String) : DocumentStore :=
  { documents := dictInsert document_id content s.documents,
    metadata := dictInsert document_id
      { filepath := filepath,
        upload_time := now,
        length := content.length,
        type := pySplitLast '.' filepath } s.metadata }

/-- Model of `DocumentStore.get_document` (lines 49-50). -/
def DocumentStore.get_document (s : DocumentStore) (document_id : String) :
    Option String :=
  dictGet document_id s.documents

/-- Model of `DocumentStore.get_metadata` (lines 52-53). -/
def DocumentStore.get_metadata (s : DocumentStore) (document_id : String) :
    Option DocMetadata :=
  dictGet document_id s.metadata

/-- Model of `DocumentStore.list_documents` (lines 55-56): `list(self.documents.keys())`. -/
def DocumentStore.list_documents (s : DocumentStore) : List String :=
  s.documents.map Prod.fst

/-- Model of `DocumentStore.search_documents` (lines 58-63): loop over the
documents dict in order, appending each id whose lower-cased content
contains the lower-cased keyword. -/
def DocumentStore.search_documents (s : DocumentStore) (keyword : String) :
    List String :=
  s.documents.foldl
    (fun ms p => if pyIn (pyLower keyword) (pyLower p.2) then ms ++ [p.1] else ms)
    []

/-- Python `s.endswith(t)`: `t` is a suffix of `s`. -/
def pyEndsWith (s t : String) : Bool :=
  t.data.reverse.isPrefixOf s.data.reverse

/-- The langchain document loaders (external collaborators): each maps a
filepath to the list of `page_content` strings of the loaded documents,
or fails with an exception message. -/
structure Loaders where
  textLoader : String → Except String (List String)
  pyPDFLoader : String → Except String (List String)
  wordLoader : String → Except String (List String)
  csvLoader : String → Except String (List String)

/-- The parser-selection chain of `load_document` (lines 70-79): pick a
loader by filepath suffix, defaulting to the text loader. -/
def selectLoader (L : Loaders) (filepath : String) :
    String → Except String (List String) :=
  if pyEndsWith filepath ".txt" then L.textLoader
  else if pyEndsWith filepath ".pdf" then L.pyPDFLoader
  else if pyEndsWith filepath ".docx" then L.wordLoader
  else if pyEndsWith filepath ".csv" then L.csvLoader
  else L.textLoader

/-- The success report of `load_document` (lines 91-99), with the exact
literal text of the Python f-string, ending in the first-500-character
preview followed by `...`. -/
def loadReport (doc_id : String) (m : DocMetadata) (text : String) : String :=
  "Document loaded successfully!\n            \n                ID: " ++ doc_id
  ++ "\n                Type: " ++ m.type
  ++ "\n                Size: " ++ toString m.length ++ " characters"
  ++ "\n                Upload Time: " ++ m.upload_time
  ++ "\n\n                Preview (first 500 chars):\n                "
  ++ pySlice 500 text ++ "..."

/-- Model of `load_document` (lines 68-101).  The whole body runs inside
`try/except Exception`, so every failure becomes the string
`"Error loading document: " ++ message` and the store is left as it
was at the point of failure.  On success the extracted pages are joined
with newlines, the document is stored under its base filename, and the
report string is returned together with the updated store. -/
def load_document (L : Loaders) (now : String) (s : DocumentStore)
    (filepath : String) : String × DocumentStore :=
  match selectLoader L filepath filepath with
  | .error e => ("Error loading document: " ++ e, s)
  | .ok pages =>
    let text := String.intercalate "\n" pages
    let doc_id := pyBasename filepath
    let s' := s.add_document doc_id text filepath now
    match s'.get_metadata doc_id with
    | none =>
      -- In Python, `metadata['type']` on `None` would raise a
      -- TypeError, caught by the same `except` clause.  This branch is
      -- unreachable (see `dictGet_dictInsert_self`).
      ("Error loading document: 'NoneType' object is not subscriptable", s')
    | some metadata => (loadReport doc_id metadata text, s')

/-- One metadata line of the list / search reports (lines 113 and 124).
`None` metadata would make the Python f-string raise a TypeError, which
these functions do not catch, so the result is `Except`. -/
def formatDocLine (s : DocumentStore) (result : String) (doc_id : String) :
    Except String String :=
  match s.get_metadata doc_id with
  | none => .error "'NoneType' object is not subscriptable"
  | some meta =>
    .ok (result ++ "\n- " ++ doc_id ++ " (" ++ meta.type ++ ", "
      ++ toString meta.length ++ " chars, loaded: " ++ meta.upload_time ++ ")")

/-- Model of `list_loaded_documents` (lines 104-114). -/
def list_loaded_documents (s : DocumentStore) (_input : String) :
    Except String String :=
  let docs := s.list_documents
  if docs.isEmpty then .ok "No documents loaded yet."
  else docs.foldlM (formatDocLine s) "Loaded Documents:\n"

/-- Module-level `search_documents` (lines 116-125): the string-report
wrapper around `DocumentStore.search_documents`.  Defined in the source
but never registered in the `tools` list. -/
def search_documents (s : DocumentStore) (keyword : String) :
    Except String String :=
  let docs := s.search_documents keyword
  if docs.isEmpty then .ok "No documents found."
  else docs.foldlM (formatDocLine s) "Search Results:\n"

/-- Model of `get_document_content` (lines 127-131): the stored content verbatim,
or the not-found guidance string.  Total: it cannot raise. -/
def get_document_content (s : DocumentStore) (document_id : String) : String :=
  match s.get_document document_id with
  | none => "Document " ++ document_id
      ++ " not found. Use list_loaded_documents to see all loaded documents."
  | some content => content

/-- A registered tool: name, description, and the bound function.  All
tool functions are modelled with the uniform shape
`store -> string argument -> Except exception (result string, store)`. -/
structure ToolEntry where
  name : String
  description : String
  func : DocumentStore → String → Except String (String × DocumentStore)

/-- The `tools` list (lines 134-152): the registered tool entries, in
order, with their exact names and descriptions from the source. -/
def tools (L : Loaders) (now : String) : List ToolEntry :=
  [ { name := "load_document",
      description := "Load a document from a filepath. Input should be the full filepath as a string. Returns confirmation with  document ID and preview.",
      func := fun s arg => .ok (load_document L now s arg) },
    { name := "list_documents",
      description := "List all currently loaded documents with their metadata. No input required.",
      func := fun s arg => (list_loaded_documents s arg).map (fun r => (r, s)) },
    { name := "get_document_content",
      description := "Get the full content of a loaded document. Input should be the document ID (filename). Use this to read and analyze document contents.",
      func := fun s arg => .ok (get_document_content s arg, s) } ]

/-- The store states reachable in a session: the empty store of process
start, closed under `add_document` (the only mutating operation). -/
inductive Reachable : DocumentStore → Prop
  | empty : Reachable DocumentStore.empty
  | add (s : DocumentStore) (document_id content filepath now : String) :
      Reachable s → Reachable (s.add_document document_id content filepath now)

/-- One recorded `add_document` call, for reasoning about call sequences. -/
structure AddCall where
  id : String
  content : String
  filepath : String
  now : String

/-- Replay a sequence of `add_document` calls from the empty store. -/
def applyAdds (calls : List AddCall) : DocumentStore :=
  calls.foldl (fun s c => s.add_document c.id c.content c.filepath c.now)
    DocumentStore.empty

/-- The distinct elements of a list in order of first occurrence. -/
def firstOccurrences (l : List String) : List String :=
  l.foldl (fun acc x => if x ∈ acc then acc else acc ++ [x]) []

/-- A trivial loader assembly for concrete witnesses: every format
parses to a single fixed page. -/
def constLoaders (page : String) : Loaders :=
  { textLoader := fun _ => .ok [page],
    pyPDFLoader := fun _ => .ok [page],
    wordLoader := fun _ => .ok [page],
    csvLoader := fun _ => .ok [page] }

/-- A loader assembly that always fails with the given message, for
concrete witnesses of the failure path. -/
def failLoaders (msg : String) : Loaders :=
  { textLoader := fun _ => .error msg,
    pyPDFLoader := fun _ => .error msg,
    wordLoader := fun _ => .error msg,
    csvLoader := fun _ => .error msg }

/-! ## Helper lemmas about the dict model -/

theorem dictGet_dictInsert_self (k : String) (v : α) (l : List (String × α)) :
    dictGet k (dictInsert k v l) = some v := by
  induction l with
  | nil => simp [dictInsert, dictGet]
  | cons p rest ih =>
    obtain ⟨k', v'⟩ := p
    by_cases h : k' = k
    · simp [dictInsert, dictGet, h]
    · simp [dictInsert, dictGet, h, ih]

theorem mem_dictInsert_self (k : String) (v : α) (l : List (String × α)) :
    (k, v) ∈ dictInsert k v l := by
  induction l with
  | nil => simp [dictInsert]
  | cons p rest ih =>
    obtain ⟨k', v'⟩ := p
    by_cases h : k' = k
    · simp [dictInsert, h]
    · simp [dictInsert, h]
      right
      exact ih

theorem map_fst_dictInsert (k : String) (v : α) (l : List (String × α)) :
    (dictInsert k v l).map Prod.fst =
      if k ∈ l.map Prod.fst then l.map Prod.fst else l.map Prod.fst ++ [k] := by
  induction l with
  | nil => simp [dictInsert]
  | cons p rest ih =>
    obtain ⟨k', v'⟩ := p
    by_cases h : k' = k
    · subst h
      simp [dictInsert]
    · have h' : ¬ k = k' := fun hk => h hk.symm
      simp only [dictInsert, if_neg h, List.map_cons, List.mem_cons, h', false_or, ih]
      split <;> simp

theorem nodup_map_fst_dictInsert (k : String) (v : α) (l : List (String × α))
    (h : (l.map Prod.fst).Nodup) : ((dictInsert k v l).map Prod.fst).Nodup := by
  rw [map_fst_dictInsert]
  split
  · exact h
  · rename_i hk
    simp [List.nodup_append, h, hk]

/-! ## Substring containment (`pyIn`) -/

theorem isPrefixOf_append (l t : List Char) : l.isPrefixOf (l ++ t) = true := by
  induction l with
  | nil => simp [List.isPrefixOf]
  | cons a l ih => simp [List.isPrefixOf, ih]

/-- The test `pyIn` is exactly substring containment: the haystack decomposes
around the needle. -/
theorem pyIn_iff (needle haystack : String) :
    pyIn needle haystack = true
      ↔ ∃ a b, haystack.data = a ++ needle.data ++ b := by
  unfold pyIn
  rw [List.any_eq_true]
  constructor
  · rintro ⟨i, _, hpre⟩
    obtain ⟨t, ht⟩ := List.isPrefixOf_iff_prefix.mp hpre
    refine ⟨haystack.data.take i, t, ?_⟩
    calc haystack.data = haystack.data.take i ++ haystack.data.drop i :=
          (List.take_append_drop i haystack.data).symm
    _ = haystack.data.take i ++ (needle.data ++ t) := by rw [ht]
    _ = haystack.data.take i ++ needle.data ++ t := by rw [List.append_assoc]
  · rintro ⟨a, b, hab⟩
    refine ⟨a.length, ?_, ?_⟩
    · apply List.mem_range.mpr
      have : a.length ≤ haystack.data.length := by
        rw [hab]
        simp
      omega
    · rw [hab, List.append_assoc, List.drop_left]
      exact isPrefixOf_append needle.data b

theorem pyIn_empty_left (haystack : String) : pyIn "" haystack = true :=
  (pyIn_iff "" haystack).mpr ⟨[], haystack.data, by simp⟩

theorem pyIn_of_middle (needle pre post : String) :
    pyIn needle (pre ++ needle ++ post) = true :=
  (pyIn_iff needle (pre ++ needle ++ post)).mpr
    ⟨pre.data, post.data, by simp [String.data_append]⟩

/-! ## C3: the two mappings always hold exactly the same ids -/

/-- C3: starting from the empty store, every reachable store state has
the same ids (in the same order) in the content mapping and in the
metadata mapping, and each id occurs exactly once. -/
theorem store_keys_invariant (s : DocumentStore) (h : Reachable s) :
    s.documents.map Prod.fst = s.metadata.map Prod.fst
    ∧ (s.documents.map Prod.fst).Nodup := by
  induction h with
  | empty => simp [DocumentStore.empty]
  | add s id c fp t _ ih =>
    obtain ⟨hkeys, hnd⟩ := ih
    refine ⟨?_, nodup_map_fst_dictInsert _ _ _ hnd⟩
    show (dictInsert id c s.documents).map Prod.fst
      = (dictInsert id _ s.metadata).map Prod.fst
    rw [map_fst_dictInsert, map_fst_dictInsert, hkeys]

/-- Witness for `store_keys_invariant` at a concrete reachable store. -/
theorem store_keys_invariant_witness :
    (DocumentStore.empty.add_document "a" "x" "a.txt" "t").documents.map Prod.fst
      = (DocumentStore.empty.add_document "a" "x" "a.txt" "t").metadata.map Prod.fst
    ∧ ((DocumentStore.empty.add_document "a" "x" "a.txt" "t").documents.map
        Prod.fst).Nodup :=
  store_keys_invariant _
    (Reachable.add DocumentStore.empty "a" "x" "a.txt" "t" Reachable.empty)

/-! ## C10: a filepath without a dot becomes its own `type` -/

/-- C10: when the filepath contains no `.`, `add_document` stores the
whole filepath (directories included) as the metadata `type`. -/
theorem add_document_no_dot_type (s : DocumentStore) (id c fp t : String)
    (h : ∀ ch ∈ fp.data, ch ≠ '.') :
    (s.add_document id c fp t).get_metadata id
      = some ⟨fp, t, c.length, fp⟩ := by
  have htype : pySplitLast '.' fp = fp := by
    unfold pySplitLast
    have : fp.data.reverse.takeWhile (fun ch => ch != '.') = fp.data.reverse := by
      apply List.takeWhile_eq_self_iff.mpr
      intro ch hch
      simpa using h ch (List.mem_reverse.mp hch)
    rw [this, List.reverse_reverse]
  unfold DocumentStore.add_document DocumentStore.get_metadata
  rw [htype]
  exact dictGet_dictInsert_self _ _ _

/-- Witness: a dotless relative path such as `notes` keeps the whole
path as its `type`. -/
theorem add_document_no_dot_type_witness :
    (DocumentStore.empty.add_document "notes" "hi" "dir/notes" "t").get_metadata
        "notes"
      = some ⟨"dir/notes", "t", 2, "dir/notes"⟩ :=
  add_document_no_dot_type DocumentStore.empty "notes" "hi" "dir/notes" "t"
    (by decide)

/-! ## C5 / C9: the failure path of `load_document` -/

/-- C5: whenever the selected loader raises, `load_document` returns the
descriptive error string built from the exception message; being a total
function into `String × DocumentStore`, it never propagates the
exception past the tool boundary. -/
theorem load_document_error_string (L : Loaders) (now : String)
    (s : DocumentStore) (filepath e : String)
    (h : selectLoader L filepath filepath = .error e) :
    (load_document L now s filepath).1 = "Error loading document: " ++ e := by
  simp [load_document, h]

/-- Witness: a loader that always raises `boom` yields the error string. -/
theorem load_document_error_string_witness :
    (load_document (failLoaders "boom") "t" DocumentStore.empty "a.txt").1
      = "Error loading document: " ++ "boom" :=
  load_document_error_string (failLoaders "boom") "t" DocumentStore.empty
    "a.txt" "boom" rfl

/-- C9: a failed load is atomic — the error string is returned and the
store is returned exactly as it was before the call (nothing inserted
or overwritten). -/
theorem load_document_failure_atomic (L : Loaders) (now : String)
    (s : DocumentStore) (filepath e : String)
    (h : selectLoader L filepath filepath = .error e) :
    load_document L now s filepath = ("Error loading document: " ++ e, s) := by
  simp [load_document, h]

/-- Witness: a failed load on a nonempty store leaves that store intact. -/
theorem load_document_failure_atomic_witness :
    load_document (failLoaders "no such file") "t2"
        (DocumentStore.empty.add_document "a" "x" "a.txt" "t1") "b.pdf"
      = ("Error loading document: " ++ "no such file",
          DocumentStore.empty.add_document "a" "x" "a.txt" "t1") :=
  load_document_failure_atomic (failLoaders "no such file") "t2"
    (DocumentStore.empty.add_document "a" "x" "a.txt" "t1") "b.pdf"
    "no such file" rfl

/-! ## C6: `get_document_content` -/

/-- C6: `get_document_content` returns the stored content verbatim when
the id is present; when it is absent it returns the guidance string,
which contains the requested id and the name of the listing function.
It is a total function, so it never raises. -/
theorem get_document_content_spec (s : DocumentStore) (document_id : String) :
    (∀ content, s.get_document document_id = some content →
        get_document_content s document_id = content)
    ∧ (s.get_document document_id = none →
        get_document_content s document_id
          = "Document " ++ document_id
            ++ " not found. Use list_loaded_documents to see all loaded documents."
        ∧ pyIn document_id (get_document_content s document_id) = true
        ∧ pyIn "list_loaded_documents" (get_document_content s document_id)
            = true) := by
  constructor
  · intro content hsome
    simp [get_document_content, hsome]
  · intro hnone
    have heq : get_document_content s document_id
        = "Document " ++ document_id
          ++ " not found. Use list_loaded_documents to see all loaded documents." := by
      simp [get_document_content, hnone]
    refine ⟨heq, ?_, ?_⟩
    · rw [heq]
      apply (pyIn_iff _ _).mpr
      exact ⟨"Document ".data,
        " not found. Use list_loaded_documents to see all loaded documents.".data,
        by simp [String.data_append]⟩
    · rw [heq]
      apply (pyIn_iff _ _).mpr
      refine ⟨("Document " ++ document_id ++ " not found. Use ").data,
        " to see all loaded documents.".data, ?_⟩
      have : "Document " ++ document_id
          ++ " not found. Use list_loaded_documents to see all loaded documents."
        = ("Document " ++ document_id ++ " not found. Use ")
          ++ "list_loaded_documents" ++ " to see all loaded documents." := by
        simp [String.ext_iff, String.data_append]
      rw [this]
      simp [String.data_append]

/-- Witness for both branches of `get_document_content_spec`. -/
theorem get_document_content_spec_witness :
    get_document_content (DocumentStore.empty.add_document "a" "x" "a.txt" "t")
        "a" = "x"
    ∧ get_document_content DocumentStore.empty "report.pdf"
        = "Document report.pdf not found. Use list_loaded_documents to see all loaded documents."
    ∧ pyIn "report.pdf" (get_document_content DocumentStore.empty "report.pdf")
        = true
    ∧ pyIn "list_loaded_documents"
        (get_document_content DocumentStore.empty "report.pdf") = true := by
  refine ⟨?_, ?_⟩
  · exact (get_document_content_spec
      (DocumentStore.empty.add_document "a" "x" "a.txt" "t") "a").1 "x" rfl
  · have h := (get_document_content_spec DocumentStore.empty "report.pdf").2 rfl
    exact ⟨by rw [h.1]; rfl, h.2.1, h.2.2⟩

/-! ## C8: id and type of a loaded `report.pdf` -/

theorem pySplitLast_dot_of_basename (fp : String)
    (hbase : pyBasename fp = "report.pdf") : pySplitLast '.' fp = "pdf" := by
  have h1 : fp.data.reverse.takeWhile (fun c => c != '/')
      = "report.pdf".data.reverse := by
    have h2 := congrArg String.data hbase
    have h3 := congrArg List.reverse h2
    simpa [pyBasename] using h3
  have h4 := (List.takeWhile_append_dropWhile (fun c => c != '/')
    fp.data.reverse).symm
  rw [h1] at h4
  unfold pySplitLast
  rw [h4]
  rfl

/-- C8: whenever the supplied filepath has base filename `report.pdf`
and the load succeeds, the document is stored under the id
`report.pdf` with the joined page text as content, and its metadata
`type` is `pdf` — independently of the directory portion of the path. -/
theorem load_document_report_pdf (L : Loaders) (now : String)
    (s : DocumentStore) (filepath : String) (pages : List String)
    (hbase : pyBasename filepath = "report.pdf")
    (h : selectLoader L filepath filepath = .ok pages) :
    ((load_document L now s filepath).2).get_document "report.pdf"
      = some (String.intercalate "\n" pages)
    ∧ ((load_document L now s filepath).2).get_metadata "report.pdf"
      = some ⟨filepath, now, (String.intercalate "\n" pages).length, "pdf"⟩ := by
  have htype := pySplitLast_dot_of_basename filepath hbase
  have hmeta : (s.add_document (pyBasename filepath)
      (String.intercalate "\n" pages) filepath now).get_metadata
        (pyBasename filepath)
      = some ⟨filepath, now, (String.intercalate "\n" pages).length, "pdf"⟩ := by
    unfold DocumentStore.add_document DocumentStore.get_metadata
    rw [htype]
    exact dictGet_dictInsert_self _ _ _
  have hload : (load_document L now s filepath).2
      = s.add_document (pyBasename filepath)
          (String.intercalate "\n" pages) filepath now := by
    rw [load_document, h]
    simp only []
    rw [hbase] at hmeta ⊢
    rw [hmeta]
  rw [hload, hbase] at *
  constructor
  · unfold DocumentStore.add_document DocumentStore.get_document
    exact dictGet_dictInsert_self _ _ _
  · rw [hbase] at hmeta
    exact hmeta

/-- Witness: loading `docs/report.pdf` with a loader returning one page. -/
theorem load_document_report_pdf_witness :
    ((load_document (constLoaders "hello") "t" DocumentStore.empty
        "docs/report.pdf").2).get_document "report.pdf"
      = some (String.intercalate "\n" ["hello"])
    ∧ ((load_document (constLoaders "hello") "t" DocumentStore.empty
        "docs/report.pdf").2).get_metadata "report.pdf"
      = some ⟨"docs/report.pdf", "t",
          (String.intercalate "\n" ["hello"]).length, "pdf"⟩ :=
  load_document_report_pdf (constLoaders "hello") "t" DocumentStore.empty
    "docs/report.pdf" ["hello"] rfl rfl

/-! ## C2: search semantics -/

theorem search_foldl_eq (p : String × String → Bool)
    (l : List (String × String)) (acc : List String) :
    l.foldl (fun ms q => if p q then ms ++ [q.1] else ms) acc
      = acc ++ (l.filter p).map Prod.fst := by
  induction l generalizing acc with
  | nil => simp
  | cons q rest ih =>
    by_cases h : p q
    · simp [h, ih, List.filter_cons]
    · simp [h, ih, List.filter_cons]

/-- C2: `search_documents` returns exactly the ids of the documents
whose lower-cased content contains the lower-cased keyword as a
substring (the `pyIn` containment characterised by the second
conjunct), in store iteration order; the empty keyword matches every
document; and after inserting content `Hello World` a search for
`hello` finds that id. -/
theorem search_documents_spec (s : DocumentStore) (keyword : String) :
    s.search_documents keyword
      = (s.documents.filter
          (fun q => pyIn (pyLower keyword) (pyLower q.2))).map Prod.fst
    ∧ (∀ needle haystack : String,
        pyIn needle haystack = true
          ↔ ∃ a b, haystack.data = a ++ needle.data ++ b)
    ∧ s.search_documents "" = s.list_documents
    ∧ ∀ (doc_id fp now : String),
        doc_id ∈ (s.add_document doc_id "Hello World" fp now).search_documents
          "hello" := by
  have hmain : ∀ (st : DocumentStore) (kw : String),
      st.search_documents kw
        = (st.documents.filter
            (fun q => pyIn (pyLower kw) (pyLower q.2))).map Prod.fst := by
    intro st kw
    unfold DocumentStore.search_documents
    rw [search_foldl_eq]
    simp
  refine ⟨hmain s keyword, pyIn_iff, ?_, ?_⟩
  · rw [hmain]
    have hall : ∀ q ∈ s.documents, pyIn (pyLower "") (pyLower q.2) = true := by
      intro q _
      exact pyIn_empty_left _
    rw [List.filter_eq_self.mpr hall]
    rfl
  · intro doc_id fp now
    rw [hmain]
    apply List.mem_map.mpr
    refine ⟨(doc_id, "Hello World"), List.mem_filter.mpr ⟨?_, ?_⟩, rfl⟩
    · exact mem_dictInsert_self doc_id "Hello World" s.documents
    · show pyIn (pyLower "hello") (pyLower "Hello World") = true
      decide

/-! ## C4: listing order and distinct count -/

theorem list_documents_applyAdds_aux (calls : List AddCall) (s : DocumentStore) :
    (calls.foldl (fun st c => st.add_document c.id c.content c.filepath c.now)
        s).documents.map Prod.fst
      = (calls.map AddCall.id).foldl
          (fun acc x => if x ∈ acc then acc else acc ++ [x])
          (s.documents.map Prod.fst) := by
  induction calls generalizing s with
  | nil => rfl
  | cons c rest ih =>
    rw [List.foldl_cons, ih, List.map_cons, List.foldl_cons]
    congr 1
    exact map_fst_dictInsert c.id c.content s.documents

theorem foldl_firstOcc_aux (l : List String) (acc : List String)
    (h : acc.Nodup) :
    (l.foldl (fun a x => if x ∈ a then a else a ++ [x]) acc).Nodup
    ∧ (l.foldl (fun a x => if x ∈ a then a else a ++ [x]) acc).toFinset
        = acc.toFinset ∪ l.toFinset := by
  induction l generalizing acc with
  | nil => simp [h]
  | cons x rest ih =>
    by_cases hx : x ∈ acc
    · rw [List.foldl_cons, if_pos hx]
      obtain ⟨h1, h2⟩ := ih acc h
      refine ⟨h1, ?_⟩
      rw [h2]
      ext a
      simp only [Finset.mem_union, List.mem_toFinset, List.toFinset_cons,
        Finset.mem_insert]
      constructor
      · tauto
      · rintro (h | rfl | h)
        · exact Or.inl h
        · exact Or.inl hx
        · exact Or.inr h
    · rw [List.foldl_cons, if_neg hx]
      have hnd : (acc ++ [x]).Nodup := by simp [List.nodup_append, h, hx]
      obtain ⟨h1, h2⟩ := ih _ hnd
      refine ⟨h1, ?_⟩
      rw [h2]
      ext a
      simp only [Finset.mem_union, List.mem_toFinset, List.mem_append,
        List.mem_singleton, List.toFinset_cons, Finset.mem_insert]
      tauto

theorem firstOccurrences_length (l : List String) :
    (firstOccurrences l).length = l.toFinset.card := by
  obtain ⟨h1, h2⟩ := foldl_firstOcc_aux l [] (by simp)
  unfold firstOccurrences
  rw [← List.toFinset_card_of_nodup h1, h2]
  simp

/-- C4: replaying any sequence of `add_document` calls from the empty
store, `list_documents` returns the ids in order of first insertion;
its length is the number of distinct inserted ids; and re-inserting an
id that is already present leaves the listing (positions and count)
unchanged. -/
theorem list_documents_spec (calls : List AddCall) :
    (applyAdds calls).list_documents = firstOccurrences (calls.map AddCall.id)
    ∧ (applyAdds calls).list_documents.length
        = (calls.map AddCall.id).toFinset.card
    ∧ ∀ (s : DocumentStore) (id c fp t : String), id ∈ s.list_documents →
        (s.add_document id c fp t).list_documents = s.list_documents := by
  have h1 : (applyAdds calls).list_documents
      = firstOccurrences (calls.map AddCall.id) :=
    list_documents_applyAdds_aux calls DocumentStore.empty
  refine ⟨h1, ?_, ?_⟩
  · rw [h1, firstOccurrences_length]
  · intro s id c fp t hmem
    have hmem' : id ∈ List.map Prod.fst s.documents := hmem
    show (dictInsert id c s.documents).map Prod.fst = s.documents.map Prod.fst
    rw [map_fst_dictInsert, if_pos hmem']

/-- Witness: three adds with a duplicated id list as `[a, b]`, count 2,
and the re-insertion of `a` leaves the listing unchanged. -/
theorem list_documents_spec_witness :
    (applyAdds [⟨"a", "x", "a.txt", "t1"⟩, ⟨"b", "y", "b.txt", "t2"⟩,
        ⟨"a", "z", "a.txt", "t3"⟩]).list_documents = ["a", "b"]
    ∧ (applyAdds [⟨"a", "x", "a.txt", "t1"⟩, ⟨"b", "y", "b.txt", "t2"⟩,
        ⟨"a", "z", "a.txt", "t3"⟩]).list_documents.length = 2
    ∧ ((DocumentStore.empty.add_document "a" "x" "a.txt" "t1").add_document
          "a" "z" "a.txt" "t3").list_documents
        = (DocumentStore.empty.add_document "a" "x" "a.txt" "t1").list_documents
    := by
  have h := list_documents_spec [⟨"a", "x", "a.txt", "t1"⟩,
    ⟨"b", "y", "b.txt", "t2"⟩, ⟨"a", "z", "a.txt", "t3"⟩]
  refine ⟨?_, ?_, ?_⟩
  · rw [h.1]; rfl
  · rw [h.2.1]; rfl
  · exact h.2.2 (DocumentStore.empty.add_document "a" "x" "a.txt" "t1")
      "a" "z" "a.txt" "t3" (by decide)

/-! ## C7: the preview in the success report -/

theorem pyEndsWith_append (a b : String) : pyEndsWith (a ++ b) b = true := by
  unfold pyEndsWith
  rw [String.data_append, List.reverse_append]
  exact isPrefixOf_append _ _

/-- The success branch of `load_document` in closed form: the report is
built from the freshly stored metadata and the store gains the new
entry. -/
theorem load_document_ok (L : Loaders) (now : String) (s : DocumentStore)
    (filepath : String) (pages : List String)
    (h : selectLoader L filepath filepath = .ok pages) :
    load_document L now s filepath
      = (loadReport (pyBasename filepath)
           ⟨filepath, now, (String.intercalate "\n" pages).length,
             pySplitLast '.' filepath⟩ (String.intercalate "\n" pages),
         s.add_document (pyBasename filepath)
           (String.intercalate "\n" pages) filepath now) := by
  have hmeta : (s.add_document (pyBasename filepath)
      (String.intercalate "\n" pages) filepath now).get_metadata
        (pyBasename filepath)
      = some ⟨filepath, now, (String.intercalate "\n" pages).length,
          pySplitLast '.' filepath⟩ := by
    unfold DocumentStore.add_document DocumentStore.get_metadata
    exact dictGet_dictInsert_self _ _ _
  unfold load_document
  rw [h]
  simp only [hmeta]

/-- C7: on every successful load the report ends with the preview — the
first `min 500 (length)` characters of the extracted text — followed by
the ellipsis marker, and when the text is no longer than 500 characters
the preview is the whole text (the marker is still appended). -/
theorem load_document_preview_spec (L : Loaders) (now : String)
    (s : DocumentStore) (filepath : String) (pages : List String)
    (h : selectLoader L filepath filepath = .ok pages) :
    pyEndsWith (load_document L now s filepath).1
        (pySlice 500 (String.intercalate "\n" pages) ++ "...") = true
    ∧ (pySlice 500 (String.intercalate "\n" pages)).data
        = (String.intercalate "\n" pages).data.take
            (min 500 (String.intercalate "\n" pages).data.length)
    ∧ ((String.intercalate "\n" pages).data.length ≤ 500 →
        pySlice 500 (String.intercalate "\n" pages)
          = String.intercalate "\n" pages) := by
  refine ⟨?_, ?_, ?_⟩
  · rw [load_document_ok L now s filepath pages h]
    show pyEndsWith (loadReport _ _ _) _ = true
    unfold loadReport
    rw [String.append_assoc]
    exact pyEndsWith_append _ _
  · unfold pySlice
    have : (String.intercalate "\n" pages).data.take
          (min 500 (String.intercalate "\n" pages).data.length)
        = ((String.intercalate "\n" pages).data.take
            (String.intercalate "\n" pages).data.length).take 500 :=
      (List.take_take 500 _ _).symm
    rw [this, List.take_length]
  · intro hle
    unfold pySlice
    rw [List.take_of_length_le hle]

/-- Witness: a two-character text still gets the full preview plus the
ellipsis marker. -/
theorem load_document_preview_witness :
    pyEndsWith (load_document (constLoaders "hi") "t" DocumentStore.empty
        "a.txt").1
        (pySlice 500 (String.intercalate "\n" ["hi"]) ++ "...") = true
    ∧ pySlice 500 (String.intercalate "\n" ["hi"])
        = String.intercalate "\n" ["hi"] :=
  ⟨(load_document_preview_spec (constLoaders "hi") "t" DocumentStore.empty
      "a.txt" ["hi"] rfl).1,
   (load_document_preview_spec (constLoaders "hi") "t" DocumentStore.empty
      "a.txt" ["hi"] rfl).2.2 (by decide)⟩

/-! ## C1: the registered tools -/

/-- C1 as stated is false on the code: the `tools` list registers only
three entries, and none of them is named `search_documents`. -/
theorem tools_count_counterexample :
    (tools (constLoaders "p") "t").length = 3
    ∧ ((tools (constLoaders "p") "t").map ToolEntry.name).contains
        "search_documents" = false :=
  ⟨rfl, rfl⟩

/-- C1 (amended): the Tool Layer registers exactly three tools —
`load_document`, `list_documents` and `get_document_content` — each
bound to the corresponding function; no registered tool is named
`search_documents`. -/
theorem tools_spec (L : Loaders) (now : String) :
    (tools L now).map ToolEntry.name
      = ["load_document", "list_documents", "get_document_content"]
    ∧ (∃ e ∈ tools L now, e.name = "load_document"
        ∧ e.func = fun s arg => .ok (load_document L now s arg))
    ∧ (∃ e ∈ tools L now, e.name = "list_documents"
        ∧ e.func = fun s arg => (list_loaded_documents s arg).map
            (fun r => (r, s)))
    ∧ (∃ e ∈ tools L now, e.name = "get_document_content"
        ∧ e.func = fun s arg => .ok (get_document_content s arg, s))
    ∧ ((tools L now).map ToolEntry.name).contains "search_documents"
        = false := by
  refine ⟨rfl,
    ⟨(tools L now).get ⟨0, by simp [tools]⟩, List.get_mem _ _ _, rfl, rfl⟩,
    ⟨(tools L now).get ⟨1, by simp [tools]⟩, List.get_mem _ _ _, rfl, rfl⟩,
    ⟨(tools L now).get ⟨2, by simp [tools]⟩, List.get_mem _ _ _, rfl, rfl⟩,
    rfl⟩

end DocAgent
